import Mathlib

/-!
Verification development for the Pokémon cards client-side data-access layer.

The JavaScript sources are shallowly embedded:
* dynamic JS values become the inductive `JSVal` (numbers carry the special
  values `NaN`/`±Infinity` relevant to the validation code; finite numbers are
  modelled as integers, which covers every value the embedded code paths
  distinguish);
* the `Pokemon` model class (`validateAndSet` and its helpers from
  `src/models/Pokemon.js`) becomes `validateAndSet : payload → Except JSErr PokemonEnt`,
  where a thrown validation `Error` is `.error (.validation msg)` and a
  member access on `null`/`undefined` (a JS `TypeError`) is `.error .typeError`;
* the service layer (`src/services/pokemonApi.js`) is embedded operation by
  operation further below, with the network modelled as an explicit oracle.
-/

inductive JSNum where
  | finite (i : Int)
  | nan
  | posInf
  | negInf
deriving DecidableEq

inductive JSVal where
  | undefined
  | null
  | bool (b : Bool)
  | num (n : JSNum)
  | str (s : String)
  | arr (elems : List JSVal)
  | obj (fields : List (String × JSVal))

def isNull : JSVal → Bool
  | .null => true
  | _ => false

def isUndefined : JSVal → Bool
  | .undefined => true
  | _ => false

def isStr : JSVal → Bool
  | .str _ => true
  | _ => false

def isArr : JSVal → Bool
  | .arr _ => true
  | _ => false

/-- JS `typeof v === 'object'` (true for objects, arrays and `null`). -/
def isObjectType : JSVal → Bool
  | .obj _ => true
  | .arr _ => true
  | .null => true
  | _ => false

def arrElems : JSVal → List JSVal
  | .arr l => l
  | _ => []

def objFields : JSVal → List (String × JSVal)
  | .obj fs => fs
  | _ => []

def strText : JSVal → String
  | .str s => s
  | _ => ""

/-- JS truthiness. -/
def jsTruthy : JSVal → Bool
  | .undefined => false
  | .null => false
  | .bool b => b
  | .num (.finite i) => decide (i ≠ 0)
  | .num .nan => false
  | .num .posInf => true
  | .num .negInf => true
  | .str s => decide (s ≠ "")
  | .arr _ => true
  | .obj _ => true

/-- `String.prototype.trim`: strip leading and trailing whitespace (defined
over the character list so the kernel can evaluate it). -/
def jsTrim (s : String) : String :=
  ⟨((s.data.dropWhile Char.isWhitespace).reverse.dropWhile Char.isWhitespace).reverse⟩

/-- `String.prototype.toLowerCase` (over the character list). -/
def jsToLower (s : String) : String :=
  ⟨s.data.map Char.toLower⟩

def digitsToNat (cs : List Char) : Nat :=
  cs.foldl (fun acc c => acc * 10 + (c.toNat - 48)) 0

/-- JS `Number(string)` restricted to the literals the embedded code can meet:
optional sign, decimal digits, `Infinity`, and the empty/whitespace string.
Other strings (fractions, exponents, hex, garbage) coerce to `NaN`; the
fraction/exponent/hex forms, which would parse in JS, never appear in the
payload positions the claims quantify over. -/
def strToNum (s : String) : JSNum :=
  let t := jsTrim s
  if t = "" then .finite 0
  else if t = "Infinity" || t = "+Infinity" then .posInf
  else if t = "-Infinity" then .negInf
  else
    let neg : Bool := match t.data with | c :: _ => c == '-' | [] => false
    let signed : Bool := match t.data with | c :: _ => c == '-' || c == '+' | [] => false
    let core := if signed then t.data.drop 1 else t.data
    if core ≠ [] ∧ core.all Char.isDigit then
      .finite ((if neg then (-1 : Int) else 1) * (digitsToNat core : Int))
    else .nan

def jsNumToString : JSNum → String
  | .finite i => toString i
  | .nan => "NaN"
  | .posInf => "Infinity"
  | .negInf => "-Infinity"

mutual

/-- JS `ToString` for the values in play (arrays stringify via `join(",")`,
where `null`/`undefined` elements contribute the empty string). -/
def jsToStringV : JSVal → String
  | .undefined => "undefined"
  | .null => "null"
  | .bool true => "true"
  | .bool false => "false"
  | .num n => jsNumToString n
  | .str s => s
  | .arr l => jsJoin l
  | .obj _ => "[object Object]"

def jsJoin : List JSVal → String
  | [] => ""
  | [.undefined] => ""
  | [.null] => ""
  | [v] => jsToStringV v
  | .undefined :: v :: vs => "," ++ jsJoin (v :: vs)
  | .null :: v :: vs => "," ++ jsJoin (v :: vs)
  | v :: w :: vs => jsToStringV v ++ "," ++ jsJoin (w :: vs)

end

/-- JS `ToNumber` (as used by `isNaN(value)` and `Number(value)`). -/
def jsToNumber : JSVal → JSNum
  | .undefined => .nan
  | .null => .finite 0
  | .bool true => .finite 1
  | .bool false => .finite 0
  | .num n => n
  | .str s => strToNum s
  | .arr l => strToNum (jsJoin l)
  | .obj _ => .nan

def jsNumAdd : JSNum → JSNum → JSNum
  | .nan, _ => .nan
  | _, .nan => .nan
  | .posInf, .negInf => .nan
  | .negInf, .posInf => .nan
  | .posInf, _ => .posInf
  | _, .posInf => .posInf
  | .negInf, _ => .negInf
  | _, .negInf => .negInf
  | .finite a, .finite b => .finite (a + b)

/-- Operands whose `ToPrimitive` is a string, making JS `+` concatenate. -/
def isStringish : JSVal → Bool
  | .str _ => true
  | .arr _ => true
  | .obj _ => true
  | _ => false

/-- JS binary `+`. -/
def jsAdd (a b : JSVal) : JSVal :=
  if isStringish a || isStringish b then .str (jsToStringV a ++ jsToStringV b)
  else .num (jsNumAdd (jsToNumber a) (jsToNumber b))

/-- JS `v >= n` where `n` is a number literal (`ToNumber` applied to `v`). -/
def jsGEconst (v : JSVal) (n : Int) : Bool :=
  match jsToNumber v with
  | .finite i => decide (n ≤ i)
  | .posInf => true
  | .nan => false
  | .negInf => false

/-- Property read on an object literal: first binding wins, absent keys give
`undefined`. -/
def objGet (fields : List (String × JSVal)) (k : String) : JSVal :=
  ((fields.lookup k).getD .undefined)

inductive JSErr where
  | validation (msg : String)
  | typeError
deriving DecidableEq

/-- Plain member access `v.k`: throws `TypeError` on `null`/`undefined`,
looks keys up on objects, and yields `undefined` on every other value. -/
def jsMember (v : JSVal) (k : String) : Except JSErr JSVal :=
  match v with
  | .undefined => .error .typeError
  | .null => .error .typeError
  | .obj fs => .ok (objGet fs k)
  | _ => .ok .undefined

/-- Optional-chaining member access `v?.k` (never throws). -/
def optGet (v : JSVal) (k : String) : JSVal :=
  match v with
  | .undefined => .undefined
  | .null => .undefined
  | .obj fs => objGet fs k
  | _ => .undefined

/-! ## The `Pokemon` model class (src/models/Pokemon.js) -/

structure PokemonEnt where
  id : JSNum
  name : String
  height : JSNum
  weight : JSNum
  base_experience : JSNum
  types : List JSVal
  abilities : List JSVal
  stats : List JSVal
  sprites : List (String × JSVal)
  cries : List (String × JSVal)
  imageUrl : JSVal
  typeNames : List JSVal
  abilityNames : List JSVal
  primaryType : JSVal
  statTotal : JSVal

/-- `Number(value) || 0`: falsy numbers (`NaN`, `0`, `-0`) become `0`. -/
def numberOrZero (v : JSVal) : JSNum :=
  match jsToNumber v with
  | .nan => .finite 0
  | .finite 0 => .finite 0
  | n => n

/-- `Pokemon.validateNumber`. -/
def validateNumber (v : JSVal) (fieldName : String) (required : Bool) :
    Except JSErr JSNum :=
  if required && (isNull v || isUndefined v || (jsToNumber v == .nan)) then
    .error (.validation (fieldName ++ " is required and must be a valid number"))
  else .ok (numberOrZero v)

/-- `Pokemon.validateString`. -/
def validateString (v : JSVal) (fieldName : String) (required : Bool) :
    Except JSErr String :=
  if required && (!jsTruthy v || !isStr v || (jsTrim (strText v) == "")) then
    .error (.validation (fieldName ++ " is required and must be a non-empty string"))
  else .ok (if isStr v then jsTrim (strText v) else "")

/-- `Pokemon.validateArray`. -/
def validateArray (v : JSVal) (fieldName : String) (required : Bool) :
    Except JSErr (List JSVal) :=
  if required && (!isArr v || (arrElems v).isEmpty) then
    .error (.validation (fieldName ++ " is required and must be a non-empty array"))
  else .ok (arrElems v)

/-- `Pokemon.validateObject`. -/
def validateObject (v : JSVal) (fieldName : String) (required : Bool) :
    Except JSErr (List (String × JSVal)) :=
  if required && (!jsTruthy v || !isObjectType v || isArr v) then
    .error (.validation (fieldName ++ " is required and must be an object"))
  else .ok (objFields v)

/-- `Pokemon.getImageUrl` (the fallback chain over the validated sprites). -/
def getImageUrl (sprites : List (String × JSVal)) : JSVal :=
  let official := optGet (optGet (objGet sprites "other") "official-artwork") "front_default"
  if jsTruthy official then official
  else
    let dream := optGet (optGet (objGet sprites "other") "dream_world") "front_default"
    if jsTruthy dream then dream
    else
      let fallback := objGet sprites "front_default"
      if jsTruthy fallback then fallback
      else .str "/placeholder-pokemon.png"

/-- One element of `Pokemon.getTypeNames` / `getAbilityNames`:
`typeof x === 'object' && x.f ? x.f.name : x`, where the member access `x.f`
throws on a `null` element. -/
def namesStep (field : String) (t : JSVal) : Except JSErr JSVal :=
  if isObjectType t then
    match jsMember t field with
    | .error e => .error e
    | .ok inner => if jsTruthy inner then jsMember inner "name" else .ok t
  else .ok t

/-- `Pokemon.getTypeNames` / `getAbilityNames` before the `.filter(Boolean)`:
the element map, with a thrown `TypeError` propagating. -/
def rawNames (field : String) : List JSVal → Except JSErr (List JSVal)
  | [] => .ok []
  | t :: ts =>
    match namesStep field t with
    | .error e => .error e
    | .ok v =>
      match rawNames field ts with
      | .error e => .error e
      | .ok rest => .ok (v :: rest)

/-- One step of `Pokemon.getStatTotal`'s reduce:
`typeof stat === 'object' && stat.base_stat ? stat.base_stat : 0`. -/
def statStep (s : JSVal) : Except JSErr JSVal :=
  if isObjectType s then
    match jsMember s "base_stat" with
    | .error e => .error e
    | .ok b => .ok (if jsTruthy b then b else .num (.finite 0))
  else .ok (.num (.finite 0))

/-- `Pokemon.getStatTotal`: reduce the stat entries with JS `+`, starting
from `0`. -/
def statTotalCalc : List JSVal → JSVal → Except JSErr JSVal
  | [], acc => .ok acc
  | s :: ss, acc =>
    match statStep s with
    | .error e => .error e
    | .ok v => statTotalCalc ss (jsAdd acc v)

/-- `typeNames[0] || 'unknown'`. -/
def primaryOf (typeNames : List JSVal) : JSVal :=
  let headv := typeNames.headD .undefined
  if jsTruthy headv then headv else .str "unknown"

/-- `Pokemon.validateAndSet` — the constructor body. Field validations run in
source order, then the derived fields are computed once. -/
def validateAndSet (data : List (String × JSVal)) : Except JSErr PokemonEnt := do
  let idv ← validateNumber (objGet data "id") "ID" true
  let namev ← validateString (objGet data "name") "Name" true
  let heightv ← validateNumber (objGet data "height") "Height" false
  let weightv ← validateNumber (objGet data "weight") "Weight" false
  let baseExpv ← validateNumber (objGet data "base_experience") "Base Experience" false
  let typesv ← validateArray (objGet data "types") "Types" false
  let abilitiesv ← validateArray (objGet data "abilities") "Abilities" false
  let statsv ← validateArray (objGet data "stats") "Stats" false
  let spritesv ← validateObject (objGet data "sprites") "Sprites" false
  let criesv ← validateObject (objGet data "cries") "Cries" false
  let imageUrlv := getImageUrl spritesv
  let typeNamesRaw ← rawNames "type" typesv
  let typeNamesv := typeNamesRaw.filter jsTruthy
  let abilityNamesRaw ← rawNames "ability" abilitiesv
  let abilityNamesv := abilityNamesRaw.filter jsTruthy
  let primaryTypev := primaryOf typeNamesv
  let statTotalv ← statTotalCalc statsv (.num (.finite 0))
  pure {
    id := idv, name := namev, height := heightv, weight := weightv,
    base_experience := baseExpv, types := typesv, abilities := abilitiesv,
    stats := statsv, sprites := spritesv, cries := criesv,
    imageUrl := imageUrlv, typeNames := typeNamesv, abilityNames := abilityNamesv,
    primaryType := primaryTypev, statTotal := statTotalv }

/-- `Pokemon.getRarity`. -/
def getRarity (p : PokemonEnt) : String :=
  if jsGEconst p.statTotal 600 then "legendary"
  else if jsGEconst p.statTotal 500 then "rare"
  else if jsGEconst p.statTotal 400 then "uncommon"
  else "common"

/-! ## The API service layer (src/services/pokemonApi.js)

The network is modelled as an explicit oracle (`transport`, `fetch`,
`byName`): the embedded operations are deterministic functions of the
oracle's answers. JavaScript runs these on a single-threaded event loop, so
the rate-limited queue's worker loop is embedded as the sequential trace it
produces. -/

/-- One task handed to `queueRequest`: its `requestFn` is abstracted by how
long the awaited operation runs and the outcome it settles with. -/
structure QueueTask (α : Type) where
  dur : Nat
  outcome : Except String α

/-- One dispatch performed by the worker loop in `processQueue`: the instant
the task's operation starts, the instant it settles, and the outcome handed
to the caller's promise. -/
structure QueueEvent (α : Type) where
  start : Nat
  finish : Nat
  outcome : Except String α

/-- The trace of the `processQueue` worker loop, started at time `now` on the
pending tasks in submission order: it repeatedly shifts the head task, awaits
its operation, resolves or rejects that task's promise with the outcome, then
waits the fixed 100 ms before pulling the next task. Tasks enqueued while the
worker runs join the tail of the list, so a whole submission sequence is the
list argument. -/
def runQueue {α : Type} : List (QueueTask α) → Nat → List (QueueEvent α)
  | [], _ => []
  | t :: ts, now => ⟨now, now + t.dur, t.outcome⟩ :: runQueue ts (now + t.dur + 100)

/-- `maxRetries` field of `PokemonApiService`. -/
def maxRetries : Nat := 3

/-- `retryDelay` field of `PokemonApiService` (milliseconds). -/
def retryDelay : Nat := 1000

/-- The message of the error thrown once the retry budget is exhausted:
`Failed to fetch ${url} after ${this.maxRetries} retries: ${error.message}` —
it carries the endpoint attempted and the last underlying cause. -/
def retryErrorMsg (url cause : String) : String :=
  "Failed to fetch " ++ url ++ " after " ++ toString maxRetries ++ " retries: " ++ cause

/-- `makeRequest(url, retries)`: `transport k` is what the `k`-th fetch
attempt settles with; the result is paired with the total backoff delay
awaited. `left` is the remaining retry budget `maxRetries - retries`, and
`k` the current attempt index. -/
def makeRequestGo (transport : Nat → Except String String) (url : String) :
    Nat → Nat → Except String String × Nat
  | k, left =>
    match transport k with
    | .ok p => (.ok p, 0)
    | .error e =>
      match left with
      | 0 => (.error (retryErrorMsg url e), 0)
      | left' + 1 =>
        let rest := makeRequestGo transport url (k + 1) left'
        (rest.1, retryDelay * 2 ^ k + rest.2)

/-- `makeRequest(url)` — first attempt with the full retry budget. -/
def makeRequest (transport : Nat → Except String String) (url : String) :
    Except String String × Nat :=
  makeRequestGo transport url 0 maxRetries

/-- `Promise.allSettled` results mapped through
`fulfilled ? value : (log, null)`. -/
def settleBatch (results : List (Except String PokemonEnt)) :
    List (Option PokemonEnt) :=
  results.map fun r => match r with | .ok v => some v | .error _ => none

/-- `getPokemonBatch(ids)`: `fetch i` is what `getPokemonById(i)` settles
with (itself cache/queue/retry/factory internally). The settled results are
mapped to `value | null` and `.filter(Boolean)` keeps the successes
(entities are objects, hence truthy). -/
def getPokemonBatch (fetch : Nat → Except String PokemonEnt) (ids : List Nat) :
    Except String (List PokemonEnt) :=
  if ids.isEmpty then .error "IDs must be a non-empty array"
  else .ok ((settleBatch (ids.map fetch)).reduceOption)

/-- `maxPokemonId` local of `getRandomPokemon`. -/
def maxPokemonId : Nat := 1010

/-- The `do { randomId = Math.floor(Math.random()*1010)+1 } while (includes)`
loop: `rng k` abstracts the `k`-th `Math.floor(Math.random()*1010)` draw
(reduced mod 1010); `fuel` bounds the otherwise unbounded rejection loop.
Returns the accepted identifier and the next draw cursor. -/
def drawOne (rng : Nat → Nat) (used : List Nat) : Nat → Nat → Option (Nat × Nat)
  | _, 0 => none
  | k, fuel + 1 =>
    let v := rng k % maxPokemonId + 1
    if v ∈ used then drawOne rng used (k + 1) fuel else some (v, k + 1)

/-- The `for` loop of `getRandomPokemon`: draw `count` identifiers, pushing
each accepted one onto the end of the accumulator. -/
def drawIds (rng : Nat → Nat) (fuel : Nat) :
    Nat → Nat → List Nat → Option (List Nat)
  | 0, _, acc => some acc
  | c + 1, k, acc =>
    match drawOne rng acc k fuel with
    | none => none
    | some (v, k') => drawIds rng fuel c k' (acc ++ [v])

/-- `getRandomPokemon(count)`: guard `1 ≤ count ≤ 50`, sample distinct
identifiers, hand them to `getPokemonBatch`. `none` marks a rejection loop
that did not finish within `fuel` draws. -/
def getRandomPokemon (fetch : Nat → Except String PokemonEnt)
    (rng : Nat → Nat) (fuel count : Nat) :
    Option (Except String (List PokemonEnt)) :=
  if count < 1 || 50 < count then
    some (.error "Count must be between 1 and 50")
  else
    match drawIds rng fuel count 0 [] with
    | none => none
    | some ids => some (getPokemonBatch fetch ids)

/-- One entry of the `getPokemonList(1000, 0).results` listing snapshot. -/
structure ListEntry where
  name : String
  url : String
deriving DecidableEq

/-- JS `s.includes(sub)` — substring containment. -/
def jsIncludes (s sub : String) : Bool :=
  (List.range (s.length + 1)).any fun i => sub.data.isPrefixOf (s.data.drop i)

/-- `query.toLowerCase().trim()`. -/
def sanitizeQuery (q : String) : String := jsTrim (jsToLower q)

/-- `searchPokemon(query, limit)`: `byName n` is what `getPokemonByName(n)`
settles with, `corpus` the `results` of the `getPokemonList(1000, 0)`
snapshot. A successful direct lookup returns that single match; otherwise the
corpus is filtered by `pokemon.name.includes(sanitizedQuery)`, capped with
`slice(0, limit)`, and the matches are fetched by name, keeping the
fulfilled ones. -/
def searchPokemon (byName : String → Except String PokemonEnt)
    (corpus : List ListEntry) (query : String) (lim : Nat) :
    Except String (List PokemonEnt) :=
  if query = "" then .error "Search query must be a non-empty string"
  else
    let sq := sanitizeQuery query
    match byName sq with
    | .ok direct => .ok [direct]
    | .error _ =>
      let matched := (corpus.filter fun e => jsIncludes e.name sq).take lim
      if matched.isEmpty then .ok []
      else .ok (matched.filterMap fun m => (byName m.name).toOption)

/-! ## The sort over result sets (`sortCurrentPokemon`,
src/controllers/PokemonController.js) -/

/-- The values `state.sortBy` ranges over. -/
inductive SortKey where
  | id
  | name
  | stats
  | type
deriving DecidableEq

/-- An already-fetched entity as the comparator reads it: `a.id`,
`a.name`, `a.getStatTotal()`, `a.getPrimaryType()`. -/
structure SortEntry where
  id : Int
  name : String
  statTotal : Int
  primaryType : String

/-- A comparator key: a number or a string. -/
inductive KeyV where
  | i (n : Int)
  | s (x : String)
deriving DecidableEq

/-- The `switch (this.state.sortBy)` computing `valueA` / `valueB`. -/
def keyOf : SortKey → SortEntry → KeyV
  | .name, e => .s (jsToLower e.name)
  | .stats, e => .i e.statTotal
  | .type, e => .s e.primaryType
  | .id, e => .i e.id

/-- JS `>` on two same-kind keys. -/
def gtK : KeyV → KeyV → Bool
  | .i a, .i b => decide (b < a)
  | .s a, .s b => decide (b < a)
  | _, _ => false

/-- The comparator body: ascending
`valueA > valueB ? 1 : valueA < valueB ? -1 : 0`, descending with the
operands swapped. -/
def jsCompare (sb : SortKey) (desc : Bool) (a b : SortEntry) : Int :=
  let ka := keyOf sb a
  let kb := keyOf sb b
  if desc then (if gtK kb ka then 1 else if gtK ka kb then -1 else 0)
  else (if gtK ka kb then 1 else if gtK kb ka then -1 else 0)

/-- `sortCurrentPokemon`: `[...pokemon].sort(comparator)`. ECMAScript sorting
is stable and, for a consistent comparator, orders by it — which is exactly
stable merge sort with `le a b ↔ comparator(a,b) ≤ 0`. -/
def sortCurrentPokemon (entries : List SortEntry) (sb : SortKey) (desc : Bool) :
    List SortEntry :=
  entries.mergeSort fun a b => decide (jsCompare sb desc a b ≤ 0)

/-! ## Theorems -/

lemma runQueue_head_start {α : Type} (ts : List (QueueTask α)) (now : Nat)
    (e : QueueEvent α) (h : (runQueue ts now)[0]? = some e) : e.start = now := by
  cases ts with
  | nil => simp [runQueue] at h
  | cons t ts =>
    simp only [runQueue, List.getElem?_cons_zero, Option.some.injEq] at h
    rw [← h]

/-- C1: tasks enqueued via `queueRequest` are dispatched in strict submission
(FIFO) order, at most one at a time: the worker trace has one event per task,
in submission order; task `i+1`'s operation starts exactly 100 ms after task
`i`'s operation has resolved or rejected; and each task's promise settles with
that task's own outcome — a rejection affects only its own task and the worker
proceeds to every later task. -/
theorem queue_fifo_serial_isolated {α : Type} (ts : List (QueueTask α)) (t0 : Nat) :
    (runQueue ts t0).length = ts.length
    ∧ (∀ i : Nat, ((runQueue ts t0)[i]?).map QueueEvent.outcome
          = (ts[i]?).map QueueTask.outcome)
    ∧ (∀ (i : Nat) e1 e2, (runQueue ts t0)[i]? = some e1 →
        (runQueue ts t0)[i + 1]? = some e2 → e2.start = e1.finish + 100) := by
  induction ts generalizing t0 with
  | nil =>
    refine ⟨rfl, ?_, ?_⟩
    · intro i
      simp [runQueue]
    · intro i e1 e2 h1 h2
      simp [runQueue] at h1
  | cons t ts ih =>
    refine ⟨by simp [runQueue, (ih (t0 + t.dur + 100)).1], fun i => ?_, fun i e1 e2 h1 h2 => ?_⟩
    · cases i with
      | zero => simp [runQueue]
      | succ n =>
        simpa [runQueue] using (ih (t0 + t.dur + 100)).2.1 n
    · cases i with
      | zero =>
        simp only [runQueue, List.getElem?_cons_zero, Option.some.injEq] at h1
        simp only [runQueue, List.getElem?_cons_succ] at h2
        rw [runQueue_head_start ts _ e2 h2, ← h1]
      | succ n =>
        exact (ih (t0 + t.dur + 100)).2.2 n e1 e2
          (by simpa [runQueue] using h1) (by simpa [runQueue] using h2)

def demoTasks : List (QueueTask Nat) := [⟨5, .ok 1⟩, ⟨7, .error "boom"⟩, ⟨2, .ok 3⟩]

theorem queue_fifo_serial_isolated_witness :
    (runQueue demoTasks 0).length = 3
    ∧ ((runQueue demoTasks 0)[1]?).map QueueEvent.outcome = some (.error "boom")
    ∧ ∃ e1 e2, (runQueue demoTasks 0)[0]? = some e1
        ∧ (runQueue demoTasks 0)[1]? = some e2 ∧ e2.start = e1.finish + 100 := by
  obtain ⟨h1, h2, h3⟩ := queue_fifo_serial_isolated demoTasks 0
  exact ⟨h1.trans rfl, (h2 1).trans rfl, ⟨_, _, rfl, rfl, h3 0 _ _ rfl rfl⟩⟩

/-- C3: `makeRequest` retries a failed attempt up to 3 times with backoff
`retryDelay * 2^attemptIndex` before each retry; if the first `k ≤ 3`
attempts fail and attempt `k` succeeds, it resolves with that attempt's
payload after a total wait of `1000 * (2^k - 1)` ms (so `3000 = 1000*(2^0+2^1)`
when the first two fail); if all 4 attempts fail it rejects with the
retry-exhausted error carrying the endpoint and the last cause, after
`1000 + 2000 + 4000` ms of backoff. -/
theorem makeRequest_retry_schedule (transport : Nat → Except String String)
    (url : String) (e : Nat → String) (k : Nat)
    (hfail : ∀ j, j < k → transport j = .error (e j)) :
    (∀ p, k ≤ 3 → transport k = .ok p →
        makeRequest transport url = (.ok p, 1000 * (2 ^ k - 1)))
    ∧ (k = 4 →
        makeRequest transport url = (.error (retryErrorMsg url (e 3)), 7000)) := by
  constructor
  · intro p hk hok
    interval_cases k
    · simp [makeRequest, makeRequestGo, maxRetries, hok]
    · have h0 := hfail 0 (by omega)
      simp [makeRequest, makeRequestGo, maxRetries, h0, hok, retryDelay]
    · have h0 := hfail 0 (by omega)
      have h1 := hfail 1 (by omega)
      simp [makeRequest, makeRequestGo, maxRetries, h0, h1, hok, retryDelay]
    · have h0 := hfail 0 (by omega)
      have h1 := hfail 1 (by omega)
      have h2 := hfail 2 (by omega)
      simp [makeRequest, makeRequestGo, maxRetries, h0, h1, h2, hok, retryDelay]
  · intro hk
    subst hk
    have h0 := hfail 0 (by omega)
    have h1 := hfail 1 (by omega)
    have h2 := hfail 2 (by omega)
    have h3 := hfail 3 (by omega)
    simp [makeRequest, makeRequestGo, maxRetries, h0, h1, h2, h3, retryDelay]

def flaky2 : Nat → Except String String :=
  fun k => if k < 2 then .error ("cause " ++ toString k) else .ok "payload"

theorem makeRequest_retry_schedule_witness :
    makeRequest flaky2 "https://pokeapi.co/api/v2/pokemon/1" = (.ok "payload", 3000)
    ∧ makeRequest (fun k => .error ("cause " ++ toString k)) "u"
        = (.error (retryErrorMsg "u" "cause 3"), 7000) := by
  constructor
  · have h := (makeRequest_retry_schedule flaky2 "https://pokeapi.co/api/v2/pokemon/1"
      (fun k => "cause " ++ toString k) 2
      (fun j hj => by interval_cases j <;> rfl)).1 "payload" (by omega) rfl
    exact h.trans (by norm_num)
  · exact (makeRequest_retry_schedule (fun k => .error ("cause " ++ toString k)) "u"
      (fun k => "cause " ++ toString k) 4
      (fun j hj => rfl)).2 rfl

lemma settleBatch_reduceOption (fetch : Nat → Except String PokemonEnt) :
    ∀ ids : List Nat,
      (settleBatch (ids.map fetch)).reduceOption
        = ids.filterMap fun i => (fetch i).toOption := by
  intro ids
  show List.filterMap id (settleBatch (List.map fetch ids))
      = List.filterMap (fun i => (fetch i).toOption) ids
  simp only [settleBatch, List.filterMap_map]
  congr 1
  funext i
  cases h : fetch i <;> simp [h, Except.toOption, Function.comp]

lemma filterMap_toOption_ids (fetch : Nat → Except String PokemonEnt)
    (hid : ∀ i p, fetch i = .ok p → p.id = .finite (i : Int)) :
    ∀ ids : List Nat,
      ((ids.filterMap fun i => (fetch i).toOption).map PokemonEnt.id)
        = (ids.filter fun i => (fetch i).toOption.isSome).map fun i : Nat => JSNum.finite (i : Int) := by
  intro ids
  induction ids with
  | nil => rfl
  | cons i ids ih =>
    cases h : fetch i with
    | ok p =>
      have hopt : (fetch i).toOption = some p := by rw [h]; rfl
      simp [List.filterMap_cons, List.filter_cons, hopt, ih]
      exact hid i p h
    | error e =>
      have hopt : (fetch i).toOption = none := by rw [h]; rfl
      simp [List.filterMap_cons, List.filter_cons, hopt, ih]

/-- C4: for a non-empty identifier list, `getPokemonBatch` settles every
per-identifier fetch, never rejects the whole batch, and returns exactly the
successful entities, preserving the relative order of the input identifiers
among the successes (failing members are dropped). -/
theorem batch_partial_failure (fetch : Nat → Except String PokemonEnt)
    (ids : List Nat) (hne : ids ≠ [])
    (hid : ∀ i p, fetch i = .ok p → p.id = .finite (i : Int)) :
    ∃ l, getPokemonBatch fetch ids = .ok l
      ∧ l.map PokemonEnt.id
          = (ids.filter fun i => (fetch i).toOption.isSome).map fun i : Nat => JSNum.finite (i : Int) := by
  refine ⟨(settleBatch (ids.map fetch)).reduceOption, ?_, ?_⟩
  · simp [getPokemonBatch, hne]
  · rw [settleBatch_reduceOption]
    exact filterMap_toOption_ids fetch hid ids

/-- A minimal constructed entity used to instantiate fetch oracles. -/
def entOf (i : Nat) : PokemonEnt :=
  ⟨.finite (i : Int), "e", .finite 0, .finite 0, .finite 0, [], [], [], [], [],
    .str "/placeholder-pokemon.png", [], [], .str "unknown", .num (.finite 0)⟩

def fetchWith404 : Nat → Except String PokemonEnt :=
  fun i => if i = 99999 then .error "HTTP 404: Not Found" else .ok (entOf i)

theorem batch_partial_failure_witness :
    ∃ l, getPokemonBatch fetchWith404 [1, 99999, 4] = .ok l
      ∧ l.map PokemonEnt.id = [.finite 1, .finite 4] := by
  obtain ⟨l, hl, hmap⟩ := batch_partial_failure fetchWith404 [1, 99999, 4]
    (by simp)
    (fun i p h => by
      by_cases hi : i = 99999
      · rw [hi] at h; simp [fetchWith404] at h
      · simp [fetchWith404, hi] at h
        rw [← h]; rfl)
  exact ⟨l, hl, hmap.trans rfl⟩

lemma drawOne_spec (rng : Nat → Nat) (used : List Nat) :
    ∀ fuel k v k', drawOne rng used k fuel = some (v, k') →
      v ∉ used ∧ 1 ≤ v ∧ v ≤ maxPokemonId := by
  intro fuel
  induction fuel with
  | zero => intro k v k' h; simp [drawOne] at h
  | succ n ih =>
    intro k v k' h
    rw [drawOne] at h
    by_cases hmem : rng k % maxPokemonId + 1 ∈ used
    · rw [if_pos hmem] at h
      exact ih (k + 1) v k' h
    · rw [if_neg hmem] at h
      have hv : rng k % maxPokemonId + 1 = v := by
        simpa using congrArg (fun q => q.map Prod.fst) h
      have hlt : rng k % maxPokemonId < maxPokemonId :=
        Nat.mod_lt _ (by simp [maxPokemonId])
      refine ⟨by rwa [hv] at hmem, by omega, by omega⟩

lemma drawIds_spec (rng : Nat → Nat) (fuel : Nat) :
    ∀ count k acc out, drawIds rng fuel count k acc = some out →
      out.length = acc.length + count
      ∧ (acc.Nodup → out.Nodup)
      ∧ (∀ x ∈ out, x ∈ acc ∨ (1 ≤ x ∧ x ≤ maxPokemonId)) := by
  intro count
  induction count with
  | zero =>
    intro k acc out h
    simp [drawIds] at h
    subst h
    exact ⟨rfl, fun h => h, fun x hx => Or.inl hx⟩
  | succ c ih =>
    intro k acc out h
    rw [drawIds] at h
    cases hd : drawOne rng acc k fuel with
    | none => rw [hd] at h; simp at h
    | some vk =>
      obtain ⟨v, k'⟩ := vk
      rw [hd] at h
      obtain ⟨hnotin, hlo, hhi⟩ := drawOne_spec rng acc fuel k v k' hd
      obtain ⟨hlen, hnd, hmem⟩ := ih k' (acc ++ [v]) out h
      refine ⟨by simp at hlen; omega, ?_, ?_⟩
      · intro hacc
        exact hnd (by simp [List.nodup_append, hacc, hnotin])
      · intro x hx
        rcases hmem x hx with hin | hr
        · rcases List.mem_append.mp hin with h1 | h2
          · exact Or.inl h1
          · simp at h2
            subst h2
            exact Or.inr ⟨hlo, hhi⟩
        · exact Or.inr hr

/-- C8: with `1 ≤ count ≤ 50`, once the rejection-sampling loop of
`getRandomPokemon` terminates it has drawn `count` pairwise-distinct
identifiers, each within `[1, 1010]`, and hands exactly them to
`getPokemonBatch`; when every per-identifier fetch succeeds, the result is
`count` entities carrying `count` distinct underlying identifiers. -/
theorem random_sample_distinct (fetch : Nat → Except String PokemonEnt)
    (rng : Nat → Nat) (fuel count : Nat) (ids : List Nat)
    (hc1 : 1 ≤ count) (hc2 : count ≤ 50)
    (hdraw : drawIds rng fuel count 0 [] = some ids)
    (hfetch : ∀ i, (fetch i).toOption.isSome)
    (hid : ∀ i p, fetch i = .ok p → p.id = .finite (i : Int)) :
    getRandomPokemon fetch rng fuel count = some (getPokemonBatch fetch ids)
    ∧ ids.length = count
    ∧ ids.Nodup
    ∧ (∀ x ∈ ids, 1 ≤ x ∧ x ≤ maxPokemonId)
    ∧ ∃ l, getPokemonBatch fetch ids = .ok l ∧ l.length = count
        ∧ (l.map PokemonEnt.id).Nodup := by
  obtain ⟨hlen, hnd, hmem⟩ := drawIds_spec rng fuel count 0 [] ids hdraw
  have hlen' : ids.length = count := by simpa using hlen
  have hnd' : ids.Nodup := hnd List.nodup_nil
  have hmem' : ∀ x ∈ ids, 1 ≤ x ∧ x ≤ maxPokemonId := by
    intro x hx
    rcases hmem x hx with h1 | h2
    · simp at h1
    · exact h2
  have hne : ids ≠ [] := by
    intro h
    rw [h] at hlen'
    simp at hlen'
    omega
  obtain ⟨l, hl, hmap⟩ := batch_partial_failure fetch ids hne hid
  have hfilter : (ids.filter fun i => (fetch i).toOption.isSome) = ids :=
    List.filter_eq_self.mpr fun a _ => hfetch a
  rw [hfilter] at hmap
  refine ⟨?_, hlen', hnd', hmem', l, hl, ?_, ?_⟩
  · have hguard : (count < 1 || 50 < count) = false := by
      simp only [Bool.or_eq_false_iff, decide_eq_false_iff_not, Nat.not_lt]
      omega
    simp only [getRandomPokemon, hguard, Bool.false_eq_true, if_false, hdraw]
  · have := congrArg List.length hmap
    simpa [hlen'] using this
  · rw [hmap]
    refine hnd'.map ?_
    intro a b hab
    have : (a : Int) = (b : Int) := by injection hab
    exact_mod_cast this

theorem random_sample_distinct_witness :
    getRandomPokemon (fun i => .ok (entOf i)) (fun n => n) 10 5
      = some (getPokemonBatch (fun i => .ok (entOf i)) [1, 2, 3, 4, 5])
    ∧ ([1, 2, 3, 4, 5] : List Nat).Nodup := by
  obtain ⟨hrun, -, hnd, -, -⟩ := random_sample_distinct (fun i => .ok (entOf i))
    (fun n => n) 10 5 [1, 2, 3, 4, 5] (by decide) (by decide) rfl
    (fun i => rfl) (fun i p h => by cases h; rfl)
  exact ⟨hrun, hnd⟩

/-- The kind (number vs string) of a comparator key. -/
def kindI : KeyV → Bool
  | .i _ => true
  | .s _ => false

lemma gtK_self (k : KeyV) : gtK k k = false := by
  cases k <;> simp [gtK]

lemma gtK_asymm {k1 k2 : KeyV} (h : gtK k1 k2 = true) : gtK k2 k1 = false := by
  cases k1 with
  | i a =>
    cases k2 with
    | i b => simp [gtK] at h ⊢; omega
    | s b => simp [gtK] at h
  | s a =>
    cases k2 with
    | i b => simp [gtK] at h
    | s b =>
      simp [gtK] at h ⊢
      exact le_of_lt h

lemma gtK_neg_trans {k1 k2 k3 : KeyV} (h12 : kindI k1 = kindI k2)
    (h23 : kindI k2 = kindI k3) (h1 : gtK k1 k2 = false) (h2 : gtK k2 k3 = false) :
    gtK k1 k3 = false := by
  cases k1 <;> cases k2 <;> cases k3 <;> simp [kindI] at h12 h23 <;>
    simp [gtK] at h1 h2 ⊢
  · omega
  · exact le_trans h1 h2

lemma jsCompare_le_iff (sb : SortKey) (desc : Bool) (a b : SortEntry) :
    decide (jsCompare sb desc a b ≤ 0)
      = !(if desc then gtK (keyOf sb b) (keyOf sb a)
          else gtK (keyOf sb a) (keyOf sb b)) := by
  cases desc with
  | false =>
    by_cases h1 : gtK (keyOf sb a) (keyOf sb b)
    · simp [jsCompare, h1]
    · by_cases h2 : gtK (keyOf sb b) (keyOf sb a) <;> simp [jsCompare, h1, h2]
  | true =>
    by_cases h1 : gtK (keyOf sb b) (keyOf sb a)
    · simp [jsCompare, h1]
    · by_cases h2 : gtK (keyOf sb a) (keyOf sb b) <;> simp [jsCompare, h1, h2]

/-- C7: the sort over result sets keyed by one of id / name / statTotal /
primaryType, ascending or descending, is stable: for every input list and
every key value `k`, the entries whose sort key equals `k` appear in the
output in exactly their original relative order. -/
theorem sort_ties_preserve_order (entries : List SortEntry) (sb : SortKey)
    (desc : Bool) (k : KeyV) :
    (sortCurrentPokemon entries sb desc).filter (fun e => keyOf sb e == k)
      = entries.filter (fun e => keyOf sb e == k) := by
  set le : SortEntry → SortEntry → Bool :=
    fun a b => decide (jsCompare sb desc a b ≤ 0) with hle
  have hunfold : sortCurrentPokemon entries sb desc = entries.mergeSort le := rfl
  have hkind : ∀ a b : SortEntry, kindI (keyOf sb a) = kindI (keyOf sb b) := by
    intro a b; cases sb <;> rfl
  have hleg : ∀ a b : SortEntry,
      le a b = !(if desc then gtK (keyOf sb b) (keyOf sb a)
        else gtK (keyOf sb a) (keyOf sb b)) :=
    fun a b => jsCompare_le_iff sb desc a b
  have htrans : ∀ a b c : SortEntry, le a b → le b c → le a c := by
    intro a b c h1 h2
    rw [hleg] at h1 h2 ⊢
    cases desc with
    | false =>
      simp only [if_neg Bool.false_ne_true, Bool.not_eq_eq_eq_not, Bool.not_true] at h1 h2 ⊢
      exact gtK_neg_trans (hkind a b) (hkind b c) h1 h2
    | true =>
      simp only [if_pos, Bool.not_eq_eq_eq_not, Bool.not_true] at h1 h2 ⊢
      exact gtK_neg_trans (hkind c b) (hkind b a) h2 h1
  have htotal : ∀ a b : SortEntry, le a b || le b a := by
    intro a b
    rw [hleg a b, hleg b a]
    cases hg : gtK (keyOf sb a) (keyOf sb b) with
    | false => cases desc <;> simp [hg]
    | true =>
      have hg2 := gtK_asymm hg
      cases desc <;> simp [hg, hg2]
  have hkeyle : ∀ a b : SortEntry, keyOf sb a = k → keyOf sb b = k → le a b := by
    intro a b ha hb
    rw [hleg, ha, hb]
    cases desc <;> simp [gtK_self]
  set p : SortEntry → Bool := fun e => keyOf sb e == k with hp
  have hpair : (entries.filter p).Pairwise (fun a b => le a b = true) := by
    apply List.pairwise_of_forall_mem_list
    intro a ha b hb
    have ha' : p a = true := List.of_mem_filter ha
    have hb' : p b = true := List.of_mem_filter hb
    rw [hp] at ha' hb'
    exact hkeyle a b (by simpa using ha') (by simpa using hb')
  have hsub : List.Sublist (entries.filter p) entries := List.filter_sublist entries
  have h1 : List.Sublist (entries.filter p) (List.mergeSort entries le) :=
    List.sublist_mergeSort htrans htotal hpair hsub
  have hf : (entries.filter p).filter p = entries.filter p :=
    List.filter_eq_self.mpr fun a ha => List.of_mem_filter ha
  have h2 : List.Sublist (entries.filter p) ((List.mergeSort entries le).filter p) := by
    have := h1.filter p
    rwa [hf] at this
  have h3 : List.Perm ((List.mergeSort entries le).filter p) (entries.filter p) :=
    (List.mergeSort_perm entries le).filter p
  rw [hunfold]
  exact (h2.eq_of_length h3.length_eq.symm).symm

lemma validateNumber_opt (v : JSVal) (fn : String) :
    validateNumber v fn false = .ok (numberOrZero v) := rfl

lemma validateArray_opt (v : JSVal) (fn : String) :
    validateArray v fn false = .ok (arrElems v) := rfl

lemma validateObject_opt (v : JSVal) (fn : String) :
    validateObject v fn false = .ok (objFields v) := rfl

/-- The condition under which required-number validation throws:
`value === null || value === undefined || isNaN(value)`. -/
def idInvalid (v : JSVal) : Bool :=
  isNull v || isUndefined v || (jsToNumber v == .nan)

/-- The condition under which required-string validation throws:
`!value || typeof value !== 'string' || value.trim() === ''`. -/
def nameInvalid (v : JSVal) : Bool :=
  !jsTruthy v || !isStr v || (jsTrim (strText v) == "")

lemma validateNumber_req (v : JSVal) (fn : String) :
    validateNumber v fn true
      = if idInvalid v then
          .error (.validation (fn ++ " is required and must be a valid number"))
        else .ok (numberOrZero v) := by
  simp [validateNumber, idInvalid]

lemma validateString_req (v : JSVal) (fn : String) :
    validateString v fn true
      = if nameInvalid v then
          .error (.validation (fn ++ " is required and must be a non-empty string"))
        else .ok (jsTrim (strText v)) := by
  show (if nameInvalid v then
        Except.error (JSErr.validation (fn ++ " is required and must be a non-empty string"))
      else Except.ok (if isStr v then jsTrim (strText v) else ""))
    = _
  cases h : nameInvalid v with
  | true => simp [h]
  | false =>
    have hs : isStr v = true := by
      simp [nameInvalid] at h
      exact h.1.2
    simp [h, hs]

lemma jsMember_obj (fs : List (String × JSVal)) (k : String) :
    jsMember (.obj fs) k = .ok (objGet fs k) := rfl

lemma jsMember_ok_of_truthy {v : JSVal} (k : String) (h : jsTruthy v = true) :
    ∃ w, jsMember v k = .ok w := by
  cases v with
  | undefined => simp [jsTruthy] at h
  | null => simp [jsTruthy] at h
  | bool b => exact ⟨.undefined, rfl⟩
  | num n => exact ⟨.undefined, rfl⟩
  | str s => exact ⟨.undefined, rfl⟩
  | arr l => exact ⟨.undefined, rfl⟩
  | obj fs => exact ⟨objGet fs k, rfl⟩

lemma namesStep_ok (field : String) (t : JSVal) (hnull : t ≠ .null) :
    ∃ v, namesStep field t = .ok v := by
  cases t with
  | null => exact absurd rfl hnull
  | obj fs =>
    by_cases ht : jsTruthy (objGet fs field)
    · obtain ⟨w, hw⟩ := jsMember_ok_of_truthy (v := objGet fs field) "name" ht
      exact ⟨w, by simp [namesStep, isObjectType, jsMember_obj, ht, hw]⟩
    · exact ⟨.obj fs, by simp [namesStep, isObjectType, jsMember_obj, ht]⟩
  | arr l => exact ⟨.arr l, rfl⟩
  | undefined => exact ⟨.undefined, rfl⟩
  | bool b => exact ⟨.bool b, rfl⟩
  | num n => exact ⟨.num n, rfl⟩
  | str s => exact ⟨.str s, rfl⟩

lemma rawNames_ok (field : String) :
    ∀ xs : List JSVal, JSVal.null ∉ xs → ∃ ys, rawNames field xs = .ok ys := by
  intro xs
  induction xs with
  | nil => intro h; exact ⟨[], rfl⟩
  | cons t ts ih =>
    intro hnull
    obtain ⟨ys, hys⟩ := ih fun hm => hnull (List.mem_cons_of_mem _ hm)
    obtain ⟨v, hv⟩ := namesStep_ok field t
      (fun h => hnull (h ▸ List.mem_cons_self t ts))
    exact ⟨v :: ys, by simp [rawNames, hv, hys]⟩

lemma statStep_ok (s : JSVal) (hnull : s ≠ .null) : ∃ v, statStep s = .ok v := by
  cases s with
  | null => exact absurd rfl hnull
  | obj fs =>
    exact ⟨if jsTruthy (objGet fs "base_stat") then objGet fs "base_stat"
      else .num (.finite 0), by simp [statStep, isObjectType, jsMember_obj]⟩
  | arr l => exact ⟨.num (.finite 0), rfl⟩
  | undefined => exact ⟨.num (.finite 0), rfl⟩
  | bool b => exact ⟨.num (.finite 0), rfl⟩
  | num n => exact ⟨.num (.finite 0), rfl⟩
  | str s => exact ⟨.num (.finite 0), rfl⟩

lemma statTotalCalc_ok :
    ∀ (xs : List JSVal) (acc : JSVal), JSVal.null ∉ xs →
      ∃ v, statTotalCalc xs acc = .ok v := by
  intro xs
  induction xs with
  | nil => intro acc h; exact ⟨acc, rfl⟩
  | cons s ss ih =>
    intro acc hnull
    obtain ⟨w, hw⟩ := statStep_ok s (fun h => hnull (h ▸ List.mem_cons_self s ss))
    obtain ⟨v, hv⟩ := ih (jsAdd acc w) fun hm => hnull (List.mem_cons_of_mem _ hm)
    exact ⟨v, by simp [statTotalCalc, hw, hv]⟩

/-- One well-formed stat entry of the upstream payload:
`{ base_stat: b, ... }`. -/
def statEntry (b : Int) : JSVal := .obj [("base_stat", .num (.finite b))]

lemma statStep_statEntry (b : Int) :
    statStep (statEntry b)
      = .ok (if jsTruthy (.num (.finite b)) then .num (.finite b)
             else .num (.finite 0)) := by
  simp [statStep, statEntry, isObjectType, jsMember, objGet]

lemma statTotalCalc_finite :
    ∀ (bs : List Int) (a : Int),
      statTotalCalc (bs.map statEntry) (.num (.finite a))
        = .ok (.num (.finite (a + bs.sum))) := by
  intro bs
  induction bs with
  | nil => intro a; simp [statTotalCalc]
  | cons b bs ih =>
    intro a
    by_cases hb : b = 0
    · subst hb
      have ht : jsTruthy (JSVal.num (.finite 0)) = false := by simp [jsTruthy]
      have hadd : jsAdd (.num (.finite a)) (.num (.finite 0)) = .num (.finite a) := by
        simp [jsAdd, isStringish, jsToNumber, jsNumAdd]
      simp [statTotalCalc, statStep_statEntry, ht, hadd, ih]
    · have ht : jsTruthy (JSVal.num (.finite b)) = true := by simp [jsTruthy, hb]
      have hadd : jsAdd (.num (.finite a)) (.num (.finite b))
          = .num (.finite (a + b)) := by
        simp [jsAdd, isStringish, jsToNumber, jsNumAdd]
      simp [statTotalCalc, statStep_statEntry, ht, hadd, ih]
      ring_nf

lemma validateAndSet_ok_inv (data : List (String × JSVal)) (p : PokemonEnt)
    (h : validateAndSet data = .ok p) :
    p.height = numberOrZero (objGet data "height")
    ∧ p.weight = numberOrZero (objGet data "weight")
    ∧ p.base_experience = numberOrZero (objGet data "base_experience")
    ∧ p.types = arrElems (objGet data "types")
    ∧ p.stats = arrElems (objGet data "stats")
    ∧ p.sprites = objFields (objGet data "sprites")
    ∧ statTotalCalc p.stats (.num (.finite 0)) = .ok p.statTotal := by
  simp only [validateAndSet, validateNumber_opt, validateArray_opt, validateObject_opt,
    bind, Except.bind, pure, Except.pure] at h
  split at h
  · simp at h
  split at h
  · simp at h
  split at h
  · simp at h
  split at h
  · simp at h
  split at h
  · simp at h
  rename_i stot hstot
  injection h with h
  subst h
  exact ⟨rfl, rfl, rfl, rfl, rfl, rfl, hstot⟩

/-- C2 (amended): entity construction fails with a Validation error naming the
first offending field exactly when `id` is null/absent/NaN-coercing (per JS
`isNaN`) or `name` is not a non-blank string; wrongly-typed container fields
never cause a validation failure — they are coerced to empty defaults — and
construction fully succeeds whenever `id` and `name` are accepted and the
sequence fields contain no `null` entry. -/
theorem build_validation_first_field (data : List (String × JSVal)) :
    (idInvalid (objGet data "id") = true →
      validateAndSet data
        = .error (.validation "ID is required and must be a valid number"))
    ∧ (idInvalid (objGet data "id") = false →
       nameInvalid (objGet data "name") = true →
      validateAndSet data
        = .error (.validation "Name is required and must be a non-empty string"))
    ∧ (idInvalid (objGet data "id") = false →
       nameInvalid (objGet data "name") = false →
       JSVal.null ∉ arrElems (objGet data "types") →
       JSVal.null ∉ arrElems (objGet data "abilities") →
       JSVal.null ∉ arrElems (objGet data "stats") →
      ∃ p, validateAndSet data = .ok p
        ∧ p.types = arrElems (objGet data "types")
        ∧ p.sprites = objFields (objGet data "sprites")) := by
  refine ⟨?_, ?_, ?_⟩
  · intro hid
    simp [validateAndSet, validateNumber_req, hid, bind, Except.bind]
  · intro hid hname
    simp [validateAndSet, validateNumber_req, validateString_req, hid, hname,
      bind, Except.bind]
  · intro hid hname hty hab hst
    obtain ⟨tys, htys⟩ := rawNames_ok "type" _ hty
    obtain ⟨abs, habs⟩ := rawNames_ok "ability" _ hab
    obtain ⟨stot, hstot⟩ := statTotalCalc_ok _ (.num (.finite 0)) hst
    have hok : validateAndSet data
        = .ok { id := numberOrZero (objGet data "id"),
                name := jsTrim (strText (objGet data "name")),
                height := numberOrZero (objGet data "height"),
                weight := numberOrZero (objGet data "weight"),
                base_experience := numberOrZero (objGet data "base_experience"),
                types := arrElems (objGet data "types"),
                abilities := arrElems (objGet data "abilities"),
                stats := arrElems (objGet data "stats"),
                sprites := objFields (objGet data "sprites"),
                cries := objFields (objGet data "cries"),
                imageUrl := getImageUrl (objFields (objGet data "sprites")),
                typeNames := tys.filter jsTruthy,
                abilityNames := abs.filter jsTruthy,
                primaryType := primaryOf (tys.filter jsTruthy),
                statTotal := stot } := by
      simp only [validateAndSet, validateNumber_req, validateString_req,
        validateNumber_opt, validateArray_opt, validateObject_opt, hid, hname,
        Bool.false_eq_true, if_false, htys, habs, hstot, bind, Except.bind,
        pure, Except.pure]
    exact ⟨_, hok, rfl, rfl⟩

/-- A payload whose `types` field is present but is a number, not an array:
the claim says construction must fail, the code accepts it. -/
def shapePayload : List (String × JSVal) :=
  [("id", .num (.finite 1)), ("name", .str "a"), ("types", .num (.finite 42))]

/-- C2 counterexample: a payload with a finite numeric id, a non-blank name
and a `types` field of the wrong container type constructs successfully
(the wrongly-shaped field is silently coerced to `[]`), while the claim
requires a Validation failure. -/
theorem build_shape_field_no_failure :
    (∃ p, validateAndSet shapePayload = .ok p ∧ p.types = [])
    ∧ objGet shapePayload "types" = .num (.finite 42)
    ∧ isArr (objGet shapePayload "types") = false :=
  ⟨⟨_, by rfl, rfl⟩, rfl, rfl⟩

theorem build_validation_first_field_witness :
    validateAndSet [("name", .str "pikachu")]
      = .error (.validation "ID is required and must be a valid number")
    ∧ validateAndSet [("id", .num (.finite 25))]
      = .error (.validation "Name is required and must be a non-empty string")
    ∧ ∃ p, validateAndSet [("id", .num (.finite 25)), ("name", .str "pikachu")]
        = .ok p := by
  refine ⟨?_, ?_, ?_⟩
  · exact (build_validation_first_field [("name", .str "pikachu")]).1 (by decide)
  · exact (build_validation_first_field [("id", .num (.finite 25))]).2.1
      (by decide) (by decide)
  · obtain ⟨p, hp, -, -⟩ :=
      (build_validation_first_field
        [("id", .num (.finite 25)), ("name", .str "pikachu")]).2.2
        (by decide) (by decide)
        (by show JSVal.null ∉ ([] : List JSVal); simp)
        (by show JSVal.null ∉ ([] : List JSVal); simp)
        (by show JSVal.null ∉ ([] : List JSVal); simp)
    exact ⟨p, hp⟩

/-- C5: for a constructed entity whose payload carries stats entries with
finite numeric `base_stat` values `bs`, `statTotal` is the sum of `bs`
(`0` for an empty stats list), and `getRarity` classifies that sum as
legendary at ≥ 600, rare at ≥ 500, uncommon at ≥ 400, common otherwise. -/
theorem stat_total_and_rarity (data : List (String × JSVal)) (bs : List Int)
    (p : PokemonEnt)
    (hstats : objGet data "stats" = .arr (bs.map statEntry))
    (h : validateAndSet data = .ok p) :
    p.statTotal = .num (.finite bs.sum)
    ∧ (bs = [] → p.statTotal = .num (.finite 0))
    ∧ getRarity p
        = (if 600 ≤ bs.sum then "legendary"
           else if 500 ≤ bs.sum then "rare"
           else if 400 ≤ bs.sum then "uncommon" else "common") := by
  obtain ⟨-, -, -, -, hstats', -, htot⟩ := validateAndSet_ok_inv data p h
  rw [hstats] at hstats'
  simp only [arrElems] at hstats'
  rw [hstats'] at htot
  have hfin := statTotalCalc_finite bs 0
  rw [htot] at hfin
  have hst : p.statTotal = .num (.finite bs.sum) := by
    have := Except.ok.inj hfin
    simpa using this
  refine ⟨hst, fun hb => by subst hb; simpa using hst, ?_⟩
  rw [getRarity, hst]
  simp only [jsGEconst, jsToNumber]
  by_cases h6 : 600 ≤ bs.sum
  · simp [h6]
  · by_cases h5 : 500 ≤ bs.sum
    · simp [h5, h6]
    · by_cases h4 : 400 ≤ bs.sum
      · simp [h4, h5, h6]
      · simp [h4, h5, h6]

def statsPayloadA : List (String × JSVal) :=
  [("id", .num (.finite 1)), ("name", .str "bulbasaur"),
   ("stats", .arr (([45, 49, 49, 65, 65, 45] : List Int).map statEntry))]

def statsPayloadB : List (String × JSVal) :=
  [("id", .num (.finite 2)), ("name", .str "mewtwo"),
   ("stats", .arr (([300, 300] : List Int).map statEntry))]

theorem stat_total_and_rarity_witness :
    ∃ p q, validateAndSet statsPayloadA = .ok p
      ∧ p.statTotal = .num (.finite 318) ∧ getRarity p = "common"
      ∧ validateAndSet statsPayloadB = .ok q
      ∧ q.statTotal = .num (.finite 600) ∧ getRarity q = "legendary" := by
  obtain ⟨p, hp⟩ : ∃ p, validateAndSet statsPayloadA = .ok p := ⟨_, by rfl⟩
  obtain ⟨q, hq⟩ : ∃ q, validateAndSet statsPayloadB = .ok q := ⟨_, by rfl⟩
  obtain ⟨hA1, -, hA3⟩ :=
    stat_total_and_rarity statsPayloadA [45, 49, 49, 65, 65, 45] p rfl hp
  obtain ⟨hB1, -, hB3⟩ :=
    stat_total_and_rarity statsPayloadB [300, 300] q rfl hq
  refine ⟨p, q, hp, ?_, ?_, hq, ?_, ?_⟩
  · simpa using hA1
  · rw [hA3]; norm_num
  · simpa using hB1
  · rw [hB3]; norm_num

/-- C9 (amended): for every accepted payload, each optional numeric field
(height, weight, base_experience) is stored as `Number(raw) || 0`: it is `0`
when the field is absent (safe default rather than failure), and otherwise the
payload's numeric value unchanged — the code does not clamp, so a negative
payload value is stored negative. -/
theorem optional_numeric_defaults (data : List (String × JSVal)) (p : PokemonEnt)
    (h : validateAndSet data = .ok p) :
    p.height = numberOrZero (objGet data "height")
    ∧ p.weight = numberOrZero (objGet data "weight")
    ∧ p.base_experience = numberOrZero (objGet data "base_experience")
    ∧ (objGet data "height" = .undefined → p.height = .finite 0)
    ∧ (objGet data "weight" = .undefined → p.weight = .finite 0)
    ∧ (objGet data "base_experience" = .undefined → p.base_experience = .finite 0)
    ∧ (∀ i : Int, 0 ≤ i → objGet data "height" = .num (.finite i) →
        (p.height = .finite i ∨ p.height = .finite 0)) := by
  obtain ⟨hh, hw, hb, -, -, -, -⟩ := validateAndSet_ok_inv data p h
  refine ⟨hh, hw, hb, ?_, ?_, ?_, ?_⟩
  · intro ha; rw [ha] at hh; simpa [numberOrZero, jsToNumber] using hh
  · intro ha; rw [ha] at hw; simpa [numberOrZero, jsToNumber] using hw
  · intro ha; rw [ha] at hb; simpa [numberOrZero, jsToNumber] using hb
  · intro i hi ha
    rw [ha] at hh
    by_cases h0 : i = 0
    · subst h0; right; simpa [numberOrZero, jsToNumber] using hh
    · left; simpa [numberOrZero, jsToNumber, h0] using hh

def negHeightPayload : List (String × JSVal) :=
  [("id", .num (.finite 1)), ("name", .str "a"), ("height", .num (.finite (-5)))]

/-- C9 counterexample: a payload carrying `height: -5` is accepted and the
constructed entity's height is `-5`, which is negative — the claim's
"non-negative" guarantee does not hold. -/
theorem optional_negative_passes :
    (∃ p, validateAndSet negHeightPayload = .ok p ∧ p.height = .finite (-5))
    ∧ (-5 : Int) < 0 := ⟨⟨_, by rfl, rfl⟩, by norm_num⟩

theorem optional_numeric_defaults_witness :
    ∃ p, validateAndSet [("id", JSVal.num (.finite 1)), ("name", JSVal.str "a")]
        = .ok p
      ∧ p.height = .finite 0 ∧ p.weight = .finite 0
      ∧ p.base_experience = .finite 0 := by
  obtain ⟨p, hp⟩ : ∃ p,
      validateAndSet [("id", JSVal.num (.finite 1)), ("name", JSVal.str "a")]
        = .ok p := ⟨_, by rfl⟩
  obtain ⟨-, -, -, h4, h5, h6, -⟩ := optional_numeric_defaults _ p hp
  exact ⟨p, hp, h4 rfl, h5 rfl, h6 rfl⟩

lemma filterMap_eq_map_of_some {α β : Type} (f : α → Option β) (g : α → β)
    (l : List α) (h : ∀ a ∈ l, f a = some (g a)) :
    l.filterMap f = l.map g := by
  induction l with
  | nil => rfl
  | cons a l ih =>
    rw [List.filterMap_cons, h a (List.mem_cons_self a l), List.map_cons,
      ih fun b hb => h b (List.mem_cons_of_mem a hb)]

/-- C6 (amended): `searchPokemon` first attempts the exact id-or-name
lookup; on success it returns exactly that single match, independent of any
listing corpus; on failure it filters the listing snapshot by
`entry.name.includes(lowercasedQuery)` — the entry's stored name, NOT
lower-cased by the code — caps the matches at `limit`, fetches them by name,
and returns the empty list (not an error) when nothing matches. -/
theorem search_precedence (byName : String → Except String PokemonEnt)
    (corpus : List ListEntry) (query : String) (lim : Nat)
    (g : ListEntry → PokemonEnt) (hq : query ≠ "") :
    (∀ p, byName (sanitizeQuery query) = .ok p →
      searchPokemon byName corpus query lim = .ok [p])
    ∧ (∀ err, byName (sanitizeQuery query) = .error err →
       (∀ e ∈ corpus, byName e.name = .ok (g e)) →
      searchPokemon byName corpus query lim
        = .ok (((corpus.filter fun e =>
            jsIncludes e.name (sanitizeQuery query)).take lim).map g)
      ∧ (((corpus.filter fun e =>
            jsIncludes e.name (sanitizeQuery query)).take lim).map g).length ≤ lim
      ∧ ((corpus.filter fun e => jsIncludes e.name (sanitizeQuery query)) = [] →
          searchPokemon byName corpus query lim = .ok [])) := by
  constructor
  · intro p hp
    simp [searchPokemon, hq, hp]
  · intro err herr hfetch
    have hmem : ∀ m ∈ (corpus.filter fun e =>
        jsIncludes e.name (sanitizeQuery query)).take lim, m ∈ corpus := by
      intro m hm
      exact List.mem_of_mem_filter ((List.take_sublist _ _).subset hm)
    have hform : searchPokemon byName corpus query lim
        = .ok (((corpus.filter fun e =>
            jsIncludes e.name (sanitizeQuery query)).take lim).map g) := by
      simp only [searchPokemon, hq, herr]
      rw [if_neg not_false]
      by_cases hempty : ((corpus.filter fun e =>
          jsIncludes e.name (sanitizeQuery query)).take lim).isEmpty
      · rw [if_pos hempty]
        rw [List.isEmpty_iff] at hempty
        rw [hempty]
        rfl
      · rw [if_neg hempty]
        congr 1
        exact filterMap_eq_map_of_some _ g _
          fun m hm => by rw [hfetch m (hmem m hm)]; rfl
    refine ⟨hform, ?_, ?_⟩
    · rw [List.length_map]
      exact le_trans (List.length_take_le _ _) (le_refl _)
    · intro hnone
      rw [hform, hnone]
      simp

def charizardEnt : PokemonEnt :=
  ⟨.finite 6, "Charizard", .finite 0, .finite 0, .finite 0, [], [], [], [], [],
    .str "/placeholder-pokemon.png", [], [], .str "unknown", .num (.finite 0)⟩

def charByName : String → Except String PokemonEnt :=
  fun n => if n = "Charizard" then .ok charizardEnt else .error "HTTP 404: Not Found"

def charCorpus : List ListEntry :=
  [⟨"Charizard", "https://pokeapi.co/api/v2/pokemon/6/"⟩]

/-- C6 counterexample: the fallback scan filters by
`entry.name.includes(query)` without lower-casing the entry's name, so a
corpus entry named `"Charizard"` — whose lower-cased name does contain the
lower-cased query `"char"`, and whose detail fetch succeeds — is not
returned: the code yields the empty result where the claim requires a
match. -/
theorem search_no_lowercase_on_names :
    searchPokemon charByName charCorpus "char" 20 = .ok []
    ∧ jsIncludes (jsToLower "Charizard") (sanitizeQuery "char") = true
    ∧ jsIncludes "Charizard" (sanitizeQuery "char") = false
    ∧ (∃ p, charByName "Charizard" = .ok p) := by
  exact ⟨by rfl, by decide, by decide, ⟨charizardEnt, by rfl⟩⟩

def pikachuEnt : PokemonEnt :=
  ⟨.finite 25, "pikachu", .finite 0, .finite 0, .finite 0, [], [], [], [], [],
    .str "/placeholder-pokemon.png", [], [], .str "unknown", .num (.finite 0)⟩

def pikaByName : String → Except String PokemonEnt :=
  fun n => if n = "pikachu" then .ok pikachuEnt else .error "HTTP 404: Not Found"

def lowerCorpus : List ListEntry :=
  [⟨"charizard", "u1"⟩, ⟨"charmander", "u2"⟩, ⟨"pikachu", "u3"⟩]

def namedEnt (n : String) : PokemonEnt :=
  ⟨.finite 0, n, .finite 0, .finite 0, .finite 0, [], [], [], [], [],
    .str "/placeholder-pokemon.png", [], [], .str "unknown", .num (.finite 0)⟩

def multiByName : String → Except String PokemonEnt :=
  fun n => if n = "char" then .error "HTTP 404: Not Found" else .ok (namedEnt n)

theorem search_precedence_witness :
    searchPokemon pikaByName lowerCorpus "pikachu" 20 = .ok [pikachuEnt]
    ∧ searchPokemon multiByName lowerCorpus "char" 2
        = .ok [namedEnt "charizard", namedEnt "charmander"] := by
  constructor
  · exact (search_precedence pikaByName lowerCorpus "pikachu" 20
      (fun _ => pikachuEnt) (by decide)).1 pikachuEnt (by rfl)
  · have h := ((search_precedence multiByName lowerCorpus "char" 2
      (fun e => namedEnt e.name) (by decide)).2 "HTTP 404: Not Found" (by rfl)
      (fun e he => by fin_cases he <;> rfl)).1
    exact h.trans (by rfl)
